import Mathlib

/-!
# The JNI binding of the binary dictionary

A shallow embedding of `org_pocketworkstation_pckeyboard_BinaryDictionary.cpp`: the
five `latinime_BinaryDictionary_*` functions, the five exported `Java_..._*Native`
entry points and the helper `throwException`.

* Managed arrays live in a heap indexed by object identity; `Get<T>ArrayElements`
  hands out a fresh native buffer holding a copy, `Release<T>ArrayElements` copies
  the buffer back for the modes `0` and `JNI_COMMIT` and not for `JNI_ABORT`.
* Every JNI call, every call of a `Dictionary` method and every log line is
  appended to a trace, so that "is not called" and "is released once" are
  statements about the trace.
* The class `Dictionary` comes from `dictionary.h`, which is not among the sources
  at hand.  The wrapper is embedded over an arbitrary implementation of it
  (`Dictionary D`).
-/

namespace BinaryDictionary

/-! ## JNI types -/

/-- A `jint`.  The wrapper does no arithmetic on its integers, it only passes them on. -/
abbrev jint := Int

/-- A `jchar` (`unsigned short`). -/
abbrev jchar := Nat

/-- A `jboolean`. -/
abbrev jboolean := Bool

/-- A native address; `NULL` is `0`. -/
abbrev Ptr := Nat

/-- The null native pointer. -/
def NULL : Ptr := 0

/-- A reference to a managed `int[]`: `none` is the null reference, `some a` the array with
identity `a`. -/
abbrev jintArray := Option Nat

/-- A reference to a managed `char[]`: `none` is the null reference. -/
abbrev jcharArray := Option Nat

/-- Release mode of `jni.h`: copy back, keep the buffer. -/
def JNI_COMMIT : jint := 1

/-- Release mode of `jni.h`: free the buffer without copying back. -/
def JNI_ABORT : jint := 2

/-- Log priority of `android/log.h`. -/
def ANDROID_LOG_ERROR : Nat := 6

/-- A `jobject` as far as the wrapper looks at it: the null reference, a direct
`java.nio.Buffer` with the address and the capacity of its memory region, or any other
object. -/
inductive jobject where
  | null
  | directBuffer (address : Ptr) (capacity : Int)
  | other
  deriving DecidableEq, Repr

/-- Everything the wrapper does to the world outside, in program order. -/
inductive Event where
  | log (prio : Nat) (tag : String) (msg : String)
  | FindClass (name : String)
  | ThrowNew (cls : String) (fmt : String) (data : Int)
  | DeleteLocalRef (cls : String)
  | newDictionary (dict : Ptr) (typedLetterMultiplier fullWordMultiplier size : jint)
  | deleteDictionary
  | GetIntArrayElements (array : Nat) (elems : Ptr)
  | GetCharArrayElements (array : Nat) (elems : Ptr)
  | ReleaseIntArrayElements (array : Nat) (elems : Ptr) (mode : jint)
  | ReleaseCharArrayElements (array : Nat) (elems : Ptr) (mode : jint)
  | getSuggestions (codes : Ptr) (codesSize : jint) (outWords frequencies : Ptr)
      (maxWordLength maxWords maxAlternatives skipPos : jint) (nextLetters : Ptr)
      (nextLettersSize : jint)
  | getBigrams (word : Ptr) (length : jint) (codes : Ptr) (codesSize : jint)
      (outWords frequencies : Ptr) (maxWordLength maxBigrams maxAlternatives : jint)
  | isValidWord (word : Ptr) (length : jint)
  deriving DecidableEq, Repr

/-- Native memory as the wrapper and the engine share it: the `int` buffers and the
`unsigned short` buffers, by address. -/
structure Native where
  ints : Ptr → List jint
  chars : Ptr → List jchar

/-- The state behind `JNIEnv *env`. -/
structure JNIEnv where
  /-- The managed `int[]` objects, by identity. -/
  intArrays : Nat → List jint
  /-- The managed `char[]` objects, by identity. -/
  charArrays : Nat → List jchar
  /-- Native memory. -/
  native : Native
  /-- The last native address handed out by `Get<T>ArrayElements`. -/
  brk : Ptr
  /-- Whether `FindClass` finds the class of this name. -/
  classes : String → Bool
  /-- The pending exception, if any: class, format and datum. -/
  exception : Option (String × String × Int)
  /-- The calls made so far. -/
  trace : List Event

/-- The ways the runtime stops the process inside a JNI call. -/
inductive Abort where
  /-- An array function was handed the null reference. -/
  | nullArray
  deriving DecidableEq, Repr

/-- The outcome of a `Dictionary` method: its return value, the object afterwards (the
methods are not `const`) and native memory afterwards (the methods write through the
pointers they are given). -/
structure Outcome (D R : Type) where
  result : R
  self : D
  native : Native

/-- The class `Dictionary` of `dictionary.h` over a representation `D` of its objects: the
constructor and the three methods the wrapper calls, with the parameters in the order of
the call sites. -/
structure Dictionary (D : Type) where
  create : (dict : Ptr) → (typedLetterMultiplier fullWordMultiplier size : jint) → D
  getSuggestions : D → Native → (codes : Ptr) → (codesSize : jint) → (outWords : Ptr) →
    (frequencies : Ptr) → (maxWordLength maxWords maxAlternatives skipPos : jint) →
    (nextLetters : Ptr) → (nextLettersSize : jint) → Outcome D Int
  getBigrams : D → Native → (word : Ptr) → (length : jint) → (codes : Ptr) →
    (codesSize : jint) → (outWords : Ptr) → (frequencies : Ptr) →
    (maxWordLength maxBigrams maxAlternatives : jint) → Outcome D Int
  isValidWord : D → Native → (word : Ptr) → (length : jint) → Outcome D Bool

/-! ## The JNI functions the wrapper calls -/

/-- Appends one event to the trace. -/
def JNIEnv.emit (env : JNIEnv) (e : Event) : JNIEnv :=
  { env with trace := env.trace ++ [e] }

/-- The function `GetDirectBufferAddress`: the address of a direct buffer, `NULL` for
anything else. -/
def JNIEnv.GetDirectBufferAddress (_env : JNIEnv) (buf : jobject) : Ptr :=
  match buf with
  | .directBuffer address _ => address
  | _ => NULL

/-- The function `GetIntArrayElements(array, NULL)`: a fresh native buffer with a copy of
the array. -/
def JNIEnv.GetIntArrayElements (env : JNIEnv) (array : jintArray) :
    Except Abort (Ptr × JNIEnv) :=
  match array with
  | none => .error .nullArray
  | some a =>
    let elems := env.brk + 1
    .ok (elems,
      { env with
        native := { env.native with
          ints := Function.update env.native.ints elems (env.intArrays a) }
        brk := elems
        trace := env.trace ++ [.GetIntArrayElements a elems] })

/-- The function `GetCharArrayElements(array, NULL)`: a fresh native buffer with a copy of
the array. -/
def JNIEnv.GetCharArrayElements (env : JNIEnv) (array : jcharArray) :
    Except Abort (Ptr × JNIEnv) :=
  match array with
  | none => .error .nullArray
  | some a =>
    let elems := env.brk + 1
    .ok (elems,
      { env with
        native := { env.native with
          chars := Function.update env.native.chars elems (env.charArrays a) }
        brk := elems
        trace := env.trace ++ [.GetCharArrayElements a elems] })

/-- The function `ReleaseIntArrayElements(array, elems, mode)`: the buffer is copied back
into the array unless the mode is `JNI_ABORT`. -/
def JNIEnv.ReleaseIntArrayElements (env : JNIEnv) (array : jintArray) (elems : Ptr)
    (mode : jint) : Except Abort JNIEnv :=
  match array with
  | none => .error .nullArray
  | some a =>
    .ok { env with
      intArrays :=
        if mode = JNI_ABORT then env.intArrays
        else Function.update env.intArrays a (env.native.ints elems)
      trace := env.trace ++ [.ReleaseIntArrayElements a elems mode] }

/-- The function `ReleaseCharArrayElements(array, elems, mode)`: the buffer is copied back
into the array unless the mode is `JNI_ABORT`. -/
def JNIEnv.ReleaseCharArrayElements (env : JNIEnv) (array : jcharArray) (elems : Ptr)
    (mode : jint) : Except Abort JNIEnv :=
  match array with
  | none => .error .nullArray
  | some a =>
    .ok { env with
      charArrays :=
        if mode = JNI_ABORT then env.charArrays
        else Function.update env.charArrays a (env.native.chars elems)
      trace := env.trace ++ [.ReleaseCharArrayElements a elems mode] }

/-! ## The wrapper -/

/-- The helper `throwException`: looks the class up and, when it is found, throws it with
the message `fmt` formatted with `data`. -/
def throwException (env : JNIEnv) (ex : String) (fmt : String) (data : Int) : JNIEnv :=
  let env := env.emit (.FindClass ex)
  if env.classes ex then
    let env := env.emit (.ThrowNew ex fmt data)
    let env := { env with exception := some (ex, fmt, data) }
    env.emit (.DeleteLocalRef ex)
  else env

/-- The function `latinime_BinaryDictionary_open`.  The handle is the `Dictionary*` cast to
`jlong`: `none` is the null pointer, the `jlong` 0. -/
def latinime_BinaryDictionary_open {D : Type} (E : Dictionary D) (env : JNIEnv)
    (_object : jobject) (dictDirectBuffer : jobject)
    (typedLetterMultiplier fullWordMultiplier size : jint) : Option D × JNIEnv :=
  let dict := env.GetDirectBufferAddress dictDirectBuffer
  if dict = NULL then
    let env := env.emit (.log ANDROID_LOG_ERROR "NativeDict" "DICT: Dictionary buffer is null")
    (none, env)
  else
    let env := env.emit (.newDictionary dict typedLetterMultiplier fullWordMultiplier size)
    let dictionary := E.create dict typedLetterMultiplier fullWordMultiplier size
    (some dictionary, env)

/-- The function `latinime_BinaryDictionary_getSuggestions`: the count, the object behind
the handle afterwards, and the environment afterwards. -/
def latinime_BinaryDictionary_getSuggestions {D : Type} (E : Dictionary D) (env : JNIEnv)
    (_object : jobject) (dict : Option D) (inputArray : jintArray) (arraySize : jint)
    (outputArray : jcharArray) (frequencyArray : jintArray)
    (maxWordLength maxWords maxAlternatives skipPos : jint) (nextLettersArray : jintArray)
    (nextLettersSize : jint) : Except Abort (Int × Option D × JNIEnv) :=
  match dict with
  | none => pure (0, none, env)
  | some dictionary => do
    let (frequencies, env) ← env.GetIntArrayElements frequencyArray
    let (inputCodes, env) ← env.GetIntArrayElements inputArray
    let (outputChars, env) ← env.GetCharArrayElements outputArray
    let (nextLetters, env) ←
      if nextLettersArray ≠ none then env.GetIntArrayElements nextLettersArray
      else pure (NULL, env)
    let env := env.emit (.getSuggestions inputCodes arraySize outputChars frequencies
      maxWordLength maxWords maxAlternatives skipPos nextLetters nextLettersSize)
    let r := E.getSuggestions dictionary env.native inputCodes arraySize outputChars
      frequencies maxWordLength maxWords maxAlternatives skipPos nextLetters nextLettersSize
    let env := { env with native := r.native }
    let count := r.result
    let env ← env.ReleaseIntArrayElements frequencyArray frequencies 0
    let env ← env.ReleaseIntArrayElements inputArray inputCodes JNI_ABORT
    let env ← env.ReleaseCharArrayElements outputArray outputChars 0
    let env ←
      if nextLetters ≠ NULL then env.ReleaseIntArrayElements nextLettersArray nextLetters 0
      else pure env
    pure (count, some r.self, env)

/-- The function `latinime_BinaryDictionary_getBigrams`. -/
def latinime_BinaryDictionary_getBigrams {D : Type} (E : Dictionary D) (env : JNIEnv)
    (_object : jobject) (dict : Option D) (prevWordArray : jcharArray) (prevWordLength : jint)
    (inputArray : jintArray) (inputArraySize : jint) (outputArray : jcharArray)
    (frequencyArray : jintArray) (maxWordLength maxBigrams maxAlternatives : jint) :
    Except Abort (Int × Option D × JNIEnv) :=
  match dict with
  | none => pure (0, none, env)
  | some dictionary => do
    let (prevWord, env) ← env.GetCharArrayElements prevWordArray
    let (inputCodes, env) ← env.GetIntArrayElements inputArray
    let (outputChars, env) ← env.GetCharArrayElements outputArray
    let (frequencies, env) ← env.GetIntArrayElements frequencyArray
    let env := env.emit (.getBigrams prevWord prevWordLength inputCodes inputArraySize
      outputChars frequencies maxWordLength maxBigrams maxAlternatives)
    let r := E.getBigrams dictionary env.native prevWord prevWordLength inputCodes
      inputArraySize outputChars frequencies maxWordLength maxBigrams maxAlternatives
    let env := { env with native := r.native }
    let count := r.result
    let env ← env.ReleaseCharArrayElements prevWordArray prevWord JNI_ABORT
    let env ← env.ReleaseIntArrayElements inputArray inputCodes JNI_ABORT
    let env ← env.ReleaseCharArrayElements outputArray outputChars 0
    let env ← env.ReleaseIntArrayElements frequencyArray frequencies 0
    pure (count, some r.self, env)

/-- The function `latinime_BinaryDictionary_isValidWord`. -/
def latinime_BinaryDictionary_isValidWord {D : Type} (E : Dictionary D) (env : JNIEnv)
    (_object : jobject) (dict : Option D) (wordArray : jcharArray) (wordLength : jint) :
    Except Abort (jboolean × Option D × JNIEnv) :=
  match dict with
  | none => pure (false, none, env)
  | some dictionary => do
    let (word, env) ← env.GetCharArrayElements wordArray
    let env := env.emit (.isValidWord word wordLength)
    let r := E.isValidWord dictionary env.native word wordLength
    let env := { env with native := r.native }
    let result := r.result
    let env ← env.ReleaseCharArrayElements wordArray word JNI_ABORT
    pure (result, some r.self, env)

/-- The function `latinime_BinaryDictionary_close`: `delete` of the object behind the
handle; `delete` of the null pointer does nothing. -/
def latinime_BinaryDictionary_close {D : Type} (_E : Dictionary D) (env : JNIEnv)
    (_object : jobject) (dict : Option D) : JNIEnv :=
  match dict with
  | none => env
  | some _ => env.emit .deleteDictionary

/-! ## The exported entry points -/

/-- The entry point `getBigramsNative`. -/
def Java_org_pocketworkstation_pckeyboard_BinaryDictionary_getBigramsNative {D : Type}
    (E : Dictionary D) (env : JNIEnv) (thiz : jobject) (dict : Option D)
    (prev_word : jcharArray) (prev_word_length : jint) (input_codes : jintArray)
    (input_codes_length : jint) (output_chars : jcharArray) (frequencies : jintArray)
    (max_word_length max_bigrams max_alternatives : jint) :
    Except Abort (Int × Option D × JNIEnv) :=
  latinime_BinaryDictionary_getBigrams E env thiz dict prev_word prev_word_length
    input_codes input_codes_length output_chars frequencies
    max_word_length max_bigrams max_alternatives

/-- The entry point `isValidWordNative`. -/
def Java_org_pocketworkstation_pckeyboard_BinaryDictionary_isValidWordNative {D : Type}
    (E : Dictionary D) (env : JNIEnv) (thiz : jobject) (native_data : Option D)
    (word : jcharArray) (word_length : jint) : Except Abort (jboolean × Option D × JNIEnv) :=
  latinime_BinaryDictionary_isValidWord E env thiz native_data word word_length

/-- The entry point `getSuggestionsNative`. -/
def Java_org_pocketworkstation_pckeyboard_BinaryDictionary_getSuggestionsNative {D : Type}
    (E : Dictionary D) (env : JNIEnv) (thiz : jobject) (dict : Option D)
    (input_codes : jintArray) (codes_size : jint) (output_chars : jcharArray)
    (frequencies : jintArray) (max_word_length max_words max_alternatives skip_pos : jint)
    (next_letters_frequencies : jintArray) (next_letters_size : jint) :
    Except Abort (Int × Option D × JNIEnv) :=
  latinime_BinaryDictionary_getSuggestions E env thiz dict input_codes codes_size output_chars
    frequencies max_word_length max_words max_alternatives skip_pos next_letters_frequencies
    next_letters_size

/-- The entry point `closeNative`. -/
def Java_org_pocketworkstation_pckeyboard_BinaryDictionary_closeNative {D : Type}
    (E : Dictionary D) (env : JNIEnv) (thiz : jobject) (dict : Option D) : JNIEnv :=
  latinime_BinaryDictionary_close E env thiz dict

/-- The entry point `openNative`. -/
def Java_org_pocketworkstation_pckeyboard_BinaryDictionary_openNative {D : Type}
    (E : Dictionary D) (env : JNIEnv) (thiz : jobject) (bb : jobject)
    (typed_letter_multiplier full_word_multiplier dict_size : jint) : Option D × JNIEnv :=
  latinime_BinaryDictionary_open E env thiz bb
    typed_letter_multiplier full_word_multiplier dict_size

/-! ## The engine, modelled from the specification

`dictionary.h` and the implementation of `Dictionary` are not among the sources at hand.
For the claims that are about what the engine returns, the engine is modelled from the
specification's component design (§3, §4). -/

/-- Modelled from the spec: the trie node of §3 (`charCode`, `children`, `terminal`,
`frequency`, `bigramRef`), which the missing `dictionary.h` would declare.  A successor in
the adjacency list is named by the word its node spells. -/
inductive TrieNode where
  | node (charCode : Nat) (children : List TrieNode) (terminal : Bool) (frequency : Int)
      (bigramRef : Option (List (List Nat × Int)))

/-- Modelled from the spec: the field `charCode` of a trie node (§3). -/
def TrieNode.charCode : TrieNode → Nat
  | .node c _ _ _ _ => c

/-- Modelled from the spec: the field `children` of a trie node (§3). -/
def TrieNode.children : TrieNode → List TrieNode
  | .node _ cs _ _ _ => cs

/-- Modelled from the spec: the field `terminal` of a trie node (§3). -/
def TrieNode.terminal : TrieNode → Bool
  | .node _ _ t _ _ => t

/-- Modelled from the spec: the field `frequency` of a trie node (§3). -/
def TrieNode.frequency : TrieNode → Int
  | .node _ _ _ f _ => f

/-- Modelled from the spec: the field `bigramRef` of a trie node (§3). -/
def TrieNode.bigramRef : TrieNode → Option (List (List Nat × Int))
  | .node _ _ _ _ b => b

/-- Modelled from the spec: the suggestion of §3, a (word, score) pair; the missing engine
would produce these. -/
structure Suggestion where
  word : List Nat
  score : ℚ
  deriving DecidableEq

/-- Modelled from the spec: what the specification leaves to the implementer of the missing
engine (§4.2, §6, §9): the decoding of the dictionary buffer into the children of the trie
root, the fractional weight of an alternative, the grouping of the flat input codes into
positions, and the layout of the three output buffers. -/
structure Format where
  decode : (dict : Ptr) → (size : Int) → List TrieNode
  altWeight : ℚ
  positions : (codes : List Int) → (codesSize : Int) → (maxAlternatives : Int) → List (List Nat)
  putWords : (buffer : List Nat) → (maxWordLength : Int) → (words : List (List Nat)) → List Nat
  putFrequencies : (buffer : List Int) → (scores : List ℚ) → List Int
  putNextLetters : (buffer : List Int) → (histogram : List (Nat × Int)) → List Int

/-- Modelled from the spec: the Dictionary Store of §4.1, the object the missing constructor
of `Dictionary` would build: the trie and the two multipliers. -/
structure Store where
  roots : List TrieNode
  typedLetterMultiplier : Int
  fullWordMultiplier : Int

/-- Modelled from the spec: the Candidate Expander of §4.2 of the missing engine: the codes
of one position with their weights, 1 for the primary code and the fractional weight for
the alternatives, cut to the first `maxAlternatives`. -/
def expand (altWeight : ℚ) (maxAlternatives : Int) (codes : List Nat) : List (Nat × ℚ) :=
  (match codes with
    | [] => []
    | primary :: alternatives => (primary, 1) :: alternatives.map fun c => (c, altWeight)).take
    maxAlternatives.toNat

/-- Modelled from the spec: the Trie Search of §4.3 of the missing engine: depth-first over
the input positions; a child whose code is admissible is descended into, the running score
multiplied by weight times `typedLetterMultiplier` when the weight is below 1; at the
position `skipPos` the search also goes on to the next position without taking an edge;
with the input exhausted a terminal node emits its word with the score times
`fullWordMultiplier` times its frequency; no branch goes deeper than `maxWordLength`. -/
def search (altWeight : ℚ) (typedLetterMultiplier fullWordMultiplier : Int)
    (maxWordLength maxAlternatives skipPos : Int) :
    (positions : List (List Nat)) → (index : Nat) → (children : List TrieNode) →
    (here : Option TrieNode) → (path : List Nat) → (score : ℚ) → List Suggestion
  | [], _, _, here, path, score =>
    match here with
    | some n =>
      if n.terminal then [⟨path, score * fullWordMultiplier * n.frequency⟩] else []
    | none => []
  | p :: rest, index, children, here, path, score =>
    (if maxWordLength < path.length + 1 then []
      else children.flatMap fun n =>
        match (expand altWeight maxAlternatives p).find? fun cw => cw.1 = n.charCode with
        | some cw =>
          search altWeight typedLetterMultiplier fullWordMultiplier maxWordLength
            maxAlternatives skipPos rest (index + 1) n.children (some n) (path ++ [n.charCode])
            (if cw.2 < 1 then score * cw.2 * typedLetterMultiplier else score)
        | none => []) ++
    (if (index : Int) = skipPos then
      search altWeight typedLetterMultiplier fullWordMultiplier maxWordLength
        maxAlternatives skipPos rest (index + 1) children here path score
      else [])


/-- Modelled from the spec: the nodes admitted at the last input position by the Trie Search
of §4.3 of the missing engine, the material of the next-letters histogram.  The traversal is
the one of `search`. -/
def admittedLast (altWeight : ℚ) (maxWordLength maxAlternatives skipPos : Int) :
    (positions : List (List Nat)) → (index : Nat) → (children : List TrieNode) →
    (depth : Nat) → List TrieNode
  | [], _, _, _ => []
  | p :: rest, index, children, depth =>
    (if maxWordLength < depth + 1 then []
      else children.flatMap fun n =>
        match (expand altWeight maxAlternatives p).find? fun cw => cw.1 = n.charCode with
        | some _ =>
          if rest.isEmpty then [n]
          else admittedLast altWeight maxWordLength maxAlternatives skipPos rest (index + 1)
            n.children (depth + 1)
        | none => []) ++
    (if (index : Int) = skipPos then
      admittedLast altWeight maxWordLength maxAlternatives skipPos rest (index + 1) children
        depth
      else [])

/-- Modelled from the spec: the next-letters histogram of §4.3 of the missing engine: every
distinct admitted code with the maximum frequency seen for it, capped at
`nextLettersSize`. -/
def histogram (nextLettersSize : Int) (admitted : List TrieNode) : List (Nat × Int) :=
  ((admitted.map TrieNode.charCode).dedup.map fun c =>
    (c, ((admitted.filter fun n => n.charCode = c).map TrieNode.frequency).foldl max 0)).take
    nextLettersSize.toNat

/-- Modelled from the spec: the lowest-ranked entry of a collector (§4.5) of the missing
engine, the one an insertion into a full collector evicts: the minimum score, and among
equal scores the entry inserted last. -/
def lowest : List Suggestion → Option Suggestion
  | [] => none
  | y :: ys =>
    match lowest ys with
    | none => some y
    | some z => if z.score ≤ y.score then some z else some y

/-- Modelled from the spec: the insertion policy of the Suggestion Collector of §4.5 of the
missing engine, of capacity `maxWords`.  A word already held keeps only its higher score; a
new word is appended while there are fewer than `maxWords` entries, or when its score
strictly exceeds the minimum retained score, which is then evicted. -/
def collect (maxWords : Int) (held : List Suggestion) (x : Suggestion) : List Suggestion :=
  match held.find? fun y => y.word = x.word with
  | some old =>
    if old.score < x.score then held.map fun y => if y.word = x.word then x else y
    else held
  | none =>
    if (held.length : Int) < maxWords then held ++ [x]
    else
      match lowest held with
      | some least => if least.score < x.score then held.erase least ++ [x] else held
      | none => held

/-- Modelled from the spec: one step of the final read of §4.5 of the missing engine: the
entry goes behind every entry whose key is at least its own. -/
def rankInsert {α : Type} (key : α → ℚ) (x : α) : List α → List α
  | [] => [x]
  | y :: ys => if key x ≤ key y then y :: rankInsert key x ys else x :: y :: ys

/-- Modelled from the spec: the final read of §4.5 (and the ranking of §4.6) of the missing
engine: descending by key, stable on ties by insertion order. -/
def rank {α : Type} (key : α → ℚ) (xs : List α) : List α :=
  xs.foldl (fun ranked x => rankInsert key x ranked) []

/-- Modelled from the spec: the exact descent of the Validator of §4.7 of the missing
engine: the node a word leads to, no alternatives and no skip. -/
def lookup : List TrieNode → List Nat → Option TrieNode
  | _, [] => none
  | children, [c] => children.find? fun n => n.charCode = c
  | children, c :: w =>
    match children.find? fun n => n.charCode = c with
    | some n => lookup n.children w
    | none => none

/-- Modelled from the spec: the Validator of §4.7 of the missing engine: true iff the final
node exists and is terminal. -/
def validWord (roots : List TrieNode) (word : List Nat) : Bool :=
  match lookup roots word with
  | some n => n.terminal
  | none => false

/-- Modelled from the spec: the admissibility check of the Bigram Engine of §4.6 of the
missing engine: every typed position admits the successor's character at that place, through
the Candidate Expander; no position at all admits every successor. -/
def admissible (altWeight : ℚ) (maxAlternatives : Int) (positions : List (List Nat))
    (successor : List Nat) : Bool :=
  positions.length ≤ successor.length &&
    (positions.zip successor).all fun pc =>
      (expand altWeight maxAlternatives pc.1).any fun cw => cw.1 = pc.2

/-- Modelled from the spec: the Bigram Engine of §4.6 of the missing engine: the previous word
is looked up through the Validator first and an unknown word gives the empty result;
otherwise the admissible successors of its node, ranked by frequency and capped at
`maxBigrams`. -/
def bigrams (altWeight : ℚ) (roots : List TrieNode) (maxBigrams maxAlternatives : Int)
    (prevWord : List Nat) (positions : List (List Nat)) : List (List Nat × Int) :=
  if validWord roots prevWord then
    match lookup roots prevWord with
    | some n =>
      (rank (fun s => (s.2 : ℚ))
        ((n.bigramRef.getD []).filter fun s =>
          admissible altWeight maxAlternatives positions s.1)).take maxBigrams.toNat
    | none => []
  else []

/-- Modelled from the spec: the suggestions of one query of the missing engine, by the data
flow of §2: Trie Search, Scorer, Suggestion Collector, final read. -/
def suggestions (altWeight : ℚ) (d : Store)
    (maxWordLength maxWords maxAlternatives skipPos : Int) (positions : List (List Nat)) :
    List Suggestion :=
  rank Suggestion.score
    ((search altWeight d.typedLetterMultiplier d.fullWordMultiplier maxWordLength
      maxAlternatives skipPos positions 0 d.roots none [] 1).foldl (collect maxWords) [])

/-- Modelled from the spec: the class `Dictionary` of the missing `dictionary.h`, by the
contracts of §4 and the boundary operations of §6.  The count returned is the number of
entries written; the store is not changed by a query. -/
def specDictionary (F : Format) : Dictionary Store where
  create dict typedLetterMultiplier fullWordMultiplier size :=
    { roots := F.decode dict size
      typedLetterMultiplier := typedLetterMultiplier
      fullWordMultiplier := fullWordMultiplier }
  getSuggestions d m codes codesSize outWords frequencies maxWordLength maxWords
      maxAlternatives skipPos nextLetters nextLettersSize :=
    let positions := F.positions (m.ints codes) codesSize maxAlternatives
    let found := suggestions F.altWeight d maxWordLength maxWords maxAlternatives skipPos
      positions
    let letters := histogram nextLettersSize
      (admittedLast F.altWeight maxWordLength maxAlternatives skipPos positions 0 d.roots 0)
    let ints := Function.update m.ints frequencies
      (F.putFrequencies (m.ints frequencies) (found.map Suggestion.score))
    { result := found.length
      self := d
      native :=
        { ints :=
            if nextLetters = NULL then ints
            else Function.update ints nextLetters (F.putNextLetters (ints nextLetters) letters)
          chars := Function.update m.chars outWords
            (F.putWords (m.chars outWords) maxWordLength (found.map Suggestion.word)) } }
  getBigrams d m word length codes codesSize outWords frequencies maxWordLength maxBigrams
      maxAlternatives :=
    let found := bigrams F.altWeight d.roots maxBigrams maxAlternatives
      ((m.chars word).take length.toNat) (F.positions (m.ints codes) codesSize maxAlternatives)
    { result := found.length
      self := d
      native :=
        { ints := Function.update m.ints frequencies
            (F.putFrequencies (m.ints frequencies) (found.map fun s => (s.2 : ℚ)))
          chars := Function.update m.chars outWords
            (F.putWords (m.chars outWords) maxWordLength (found.map Prod.fst)) } }
  isValidWord d m word length :=
    { result := validWord d.roots ((m.chars word).take length.toNat)
      self := d
      native := m }

/-- A format for running the modelled engine on concrete inputs: the buffer at any address
holds the words cat (200), car (150) and cab (50), cat with the successor nap (80); an
alternative weighs one half; the input codes come `maxAlternatives` per position, unused
slots negative; words are written `maxWordLength` characters apiece, zero-padded. -/
def sampleFormat : Format where
  decode _ _ :=
    [.node 99 [.node 97 [.node 98 [] true 50 none, .node 114 [] true 150 none,
      .node 116 [] true 200 (some [([110, 97, 112], 80)])] false 0 none] false 0 none,
     .node 110 [.node 97 [.node 112 [] true 80 none] false 0 none] false 0 none]
  altWeight := 1 / 2
  positions codes codesSize maxAlternatives :=
    (List.range codesSize.toNat).map fun i =>
      (((codes.drop (i * maxAlternatives.toNat)).take maxAlternatives.toNat).filter
        fun c => 0 ≤ c).map Int.toNat
  putWords buffer maxWordLength words :=
    let written := words.flatMap fun w =>
      (w ++ List.replicate maxWordLength.toNat 0).take maxWordLength.toNat
    written ++ buffer.drop written.length
  putFrequencies buffer scores :=
    let written := scores.map fun s => ⌊s⌋
    written ++ buffer.drop written.length
  putNextLetters buffer letters :=
    let written := letters.map Prod.snd
    written ++ buffer.drop written.length

/-! ## Observations and sample inputs -/

/-- The value a call returned, `none` when the runtime stopped the process instead. -/
def result? {α β : Type} (r : Except Abort (α × β × JNIEnv)) : Option α :=
  match r with
  | .ok x => some x.1
  | .error _ => none

/-- The managed `int[]` with identity `a` after a call that returned. -/
def intArray? {α β : Type} (r : Except Abort (α × β × JNIEnv)) (a : Nat) :
    Option (List jint) :=
  match r with
  | .ok x => some (x.2.2.intArrays a)
  | .error _ => none

/-- The managed `char[]` with identity `a` after a call that returned. -/
def charArray? {α β : Type} (r : Except Abort (α × β × JNIEnv)) (a : Nat) :
    Option (List jchar) :=
  match r with
  | .ok x => some (x.2.2.charArrays a)
  | .error _ => none

/-- The trace after a call that returned. -/
def trace? {α β : Type} (r : Except Abort (α × β × JNIEnv)) : Option (List Event) :=
  match r with
  | .ok x => some x.2.2.trace
  | .error _ => none

/-- A native buffer in the hands of the wrapper: whether it is an `int` buffer, the array it
was obtained from, and its address. -/
structure Held where
  ints : Bool
  array : Nat
  elems : Ptr
  deriving DecidableEq, Repr

/-- Replays the acquisitions and releases of a trace on the set of buffers held.  The result
is `none` when a release names a buffer that is not held, or an acquisition one that is;
otherwise the buffers still held at the end.  A release with `JNI_COMMIT` keeps the
buffer. -/
def replay : List Held → List Event → Option (List Held)
  | held, [] => some held
  | held, .GetIntArrayElements a p :: rest =>
    if Held.mk true a p ∈ held then none else replay (Held.mk true a p :: held) rest
  | held, .GetCharArrayElements a p :: rest =>
    if Held.mk false a p ∈ held then none else replay (Held.mk false a p :: held) rest
  | held, .ReleaseIntArrayElements a p mode :: rest =>
    if Held.mk true a p ∈ held then
      replay (if mode = JNI_COMMIT then held else held.erase (Held.mk true a p)) rest
    else none
  | held, .ReleaseCharArrayElements a p mode :: rest =>
    if Held.mk false a p ∈ held then
      replay (if mode = JNI_COMMIT then held else held.erase (Held.mk false a p)) rest
    else none
  | held, _ :: rest => replay held rest

/-- The claim's marshalled `int[]` argument: a non-null pointer to a native buffer that holds
the elements of the array. -/
def marshalsInt (env : JNIEnv) (m : Native) (array : Nat) (p : Ptr) : Prop :=
  p ≠ NULL ∧ m.ints p = env.intArrays array

/-- The claim's marshalled `char[]` argument: a non-null pointer to a native buffer that holds
the elements of the array. -/
def marshalsChar (env : JNIEnv) (m : Native) (array : Nat) (p : Ptr) : Prop :=
  p ≠ NULL ∧ m.chars p = env.charArrays array

/-- The claim's marshalled next-letters argument: the null pointer for the null reference,
and a marshalled `int[]` otherwise. -/
def marshalsNextLetters (env : JNIEnv) (m : Native) (array : jintArray) (p : Ptr) : Prop :=
  match array with
  | none => p = NULL
  | some a => marshalsInt env m a p

instance (env : JNIEnv) (m : Native) (array : Nat) (p : Ptr) :
    Decidable (marshalsInt env m array p) := by
  unfold marshalsInt; infer_instance

instance (env : JNIEnv) (m : Native) (array : Nat) (p : Ptr) :
    Decidable (marshalsChar env m array p) := by
  unfold marshalsChar; infer_instance

instance (env : JNIEnv) (m : Native) (array : jintArray) (p : Ptr) :
    Decidable (marshalsNextLetters env m array p) := by
  unfold marshalsNextLetters; cases array <;> infer_instance

/-- A stand-in for the engine, for running the wrapper on concrete inputs: every method
overwrites each buffer it is handed with a value that tells the buffers apart, and counts
the calls in the object. -/
def scribble : Dictionary Nat where
  create dict _ _ size := dict + size.toNat
  getSuggestions d m codes _ outWords frequencies _ _ _ _ nextLetters _ :=
    { result := 1
      self := d + 1
      native :=
        { ints := Function.update (Function.update (Function.update m.ints codes [101])
            frequencies [102]) nextLetters [103]
          chars := Function.update m.chars outWords [104] } }
  getBigrams d m word _ codes _ outWords frequencies _ _ _ :=
    { result := 1
      self := d + 1
      native :=
        { ints := Function.update (Function.update m.ints codes [101]) frequencies [102]
          chars := Function.update (Function.update m.chars word [105]) outWords [104] } }
  isValidWord d m word _ :=
    { result := true
      self := d + 1
      native := { m with chars := Function.update m.chars word [105] } }

/-- A sample environment.  The `int[]` 1 holds the codes c, a and t with the alternatives r
and b, three slots a position; the `int[]` 2 and 3 are buffers for frequencies and next
letters; the `char[]` 1 is a buffer for three words of four characters, the `char[]` 2
spells cat, the `char[]` 3 spells dog. -/
def sampleEnv : JNIEnv where
  intArrays := fun a =>
    if a = 1 then [99, -1, -1, 97, -1, -1, 116, 114, 98]
    else if a = 2 then [0, 0, 0]
    else if a = 3 then [0, 0, 0, 0]
    else []
  charArrays := fun a =>
    if a = 1 then [0, 0, 0, 0, 0, 0, 0, 0, 0, 0, 0, 0]
    else if a = 2 then [99, 97, 116]
    else if a = 3 then [100, 111, 103]
    else []
  native := { ints := fun _ => [], chars := fun _ => [] }
  brk := 0
  classes := fun _ => true
  exception := none
  trace := []

/-- The store the modelled engine builds from the sample format. -/
def sampleStore : Store :=
  (specDictionary sampleFormat).create 4096 2 2 64

/-! ## Running the wrapper -/

/-- The run of `getSuggestions` on a non-null handle without a next-letters array, written
out. -/
theorem getSuggestions_run_none {D : Type} (E : Dictionary D) (env : JNIEnv) (thiz : jobject)
    (d : D) (i o f : Nat) (n mwl mw ma sp nls : jint) (m : Native) (r : Outcome D Int)
    (hm : m =
      { ints := Function.update (Function.update env.native.ints (env.brk + 1) (env.intArrays f))
          (env.brk + 2) (env.intArrays i)
        chars := Function.update env.native.chars (env.brk + 3) (env.charArrays o) })
    (hr : r = E.getSuggestions d m (env.brk + 2) n (env.brk + 3) (env.brk + 1) mwl mw ma sp
      NULL nls) :
    latinime_BinaryDictionary_getSuggestions E env thiz (some d) (some i) n (some o) (some f)
        mwl mw ma sp none nls =
      Except.ok (r.result, some r.self,
        { intArrays := Function.update env.intArrays f (r.native.ints (env.brk + 1))
          charArrays := Function.update env.charArrays o (r.native.chars (env.brk + 3))
          native := r.native
          brk := env.brk + 3
          classes := env.classes
          exception := env.exception
          trace := env.trace ++
            [Event.GetIntArrayElements f (env.brk + 1),
              Event.GetIntArrayElements i (env.brk + 2),
              Event.GetCharArrayElements o (env.brk + 3),
              Event.getSuggestions (env.brk + 2) n (env.brk + 3) (env.brk + 1) mwl mw ma sp
                NULL nls,
              Event.ReleaseIntArrayElements f (env.brk + 1) 0,
              Event.ReleaseIntArrayElements i (env.brk + 2) JNI_ABORT,
              Event.ReleaseCharArrayElements o (env.brk + 3) 0] }) := by
  subst hr hm
  simp [latinime_BinaryDictionary_getSuggestions, JNIEnv.GetIntArrayElements,
    JNIEnv.GetCharArrayElements, JNIEnv.ReleaseIntArrayElements,
    JNIEnv.ReleaseCharArrayElements, bind, Except.bind, pure, Except.pure, JNIEnv.emit,
    NULL, JNI_ABORT, Nat.add_assoc]

/-- The run of `getSuggestions` on a non-null handle with a next-letters array, written
out. -/
theorem getSuggestions_run_some {D : Type} (E : Dictionary D) (env : JNIEnv) (thiz : jobject)
    (d : D) (i o f nl : Nat) (n mwl mw ma sp nls : jint) (m : Native) (r : Outcome D Int)
    (hm : m =
      { ints := Function.update (Function.update (Function.update env.native.ints
          (env.brk + 1) (env.intArrays f)) (env.brk + 2) (env.intArrays i))
          (env.brk + 4) (env.intArrays nl)
        chars := Function.update env.native.chars (env.brk + 3) (env.charArrays o) })
    (hr : r = E.getSuggestions d m (env.brk + 2) n (env.brk + 3) (env.brk + 1) mwl mw ma sp
      (env.brk + 4) nls) :
    latinime_BinaryDictionary_getSuggestions E env thiz (some d) (some i) n (some o) (some f)
        mwl mw ma sp (some nl) nls =
      Except.ok (r.result, some r.self,
        { intArrays := Function.update
            (Function.update env.intArrays f (r.native.ints (env.brk + 1))) nl
            (r.native.ints (env.brk + 4))
          charArrays := Function.update env.charArrays o (r.native.chars (env.brk + 3))
          native := r.native
          brk := env.brk + 4
          classes := env.classes
          exception := env.exception
          trace := env.trace ++
            [Event.GetIntArrayElements f (env.brk + 1),
              Event.GetIntArrayElements i (env.brk + 2),
              Event.GetCharArrayElements o (env.brk + 3),
              Event.GetIntArrayElements nl (env.brk + 4),
              Event.getSuggestions (env.brk + 2) n (env.brk + 3) (env.brk + 1) mwl mw ma sp
                (env.brk + 4) nls,
              Event.ReleaseIntArrayElements f (env.brk + 1) 0,
              Event.ReleaseIntArrayElements i (env.brk + 2) JNI_ABORT,
              Event.ReleaseCharArrayElements o (env.brk + 3) 0,
              Event.ReleaseIntArrayElements nl (env.brk + 4) 0] }) := by
  subst hr hm
  simp [latinime_BinaryDictionary_getSuggestions, JNIEnv.GetIntArrayElements,
    JNIEnv.GetCharArrayElements, JNIEnv.ReleaseIntArrayElements,
    JNIEnv.ReleaseCharArrayElements, bind, Except.bind, pure, Except.pure, JNIEnv.emit,
    NULL, JNI_ABORT, Nat.add_assoc]

/-- The run of `getBigrams` on a non-null handle, written out. -/
theorem getBigrams_run {D : Type} (E : Dictionary D) (env : JNIEnv) (thiz : jobject)
    (d : D) (w i o f : Nat) (wl n mwl mb ma : jint) (m : Native) (r : Outcome D Int)
    (hm : m =
      { ints := Function.update (Function.update env.native.ints (env.brk + 2) (env.intArrays i))
          (env.brk + 4) (env.intArrays f)
        chars := Function.update (Function.update env.native.chars (env.brk + 1)
          (env.charArrays w)) (env.brk + 3) (env.charArrays o) })
    (hr : r = E.getBigrams d m (env.brk + 1) wl (env.brk + 2) n (env.brk + 3) (env.brk + 4)
      mwl mb ma) :
    latinime_BinaryDictionary_getBigrams E env thiz (some d) (some w) wl (some i) n (some o)
        (some f) mwl mb ma =
      Except.ok (r.result, some r.self,
        { intArrays := Function.update env.intArrays f (r.native.ints (env.brk + 4))
          charArrays := Function.update env.charArrays o (r.native.chars (env.brk + 3))
          native := r.native
          brk := env.brk + 4
          classes := env.classes
          exception := env.exception
          trace := env.trace ++
            [Event.GetCharArrayElements w (env.brk + 1),
              Event.GetIntArrayElements i (env.brk + 2),
              Event.GetCharArrayElements o (env.brk + 3),
              Event.GetIntArrayElements f (env.brk + 4),
              Event.getBigrams (env.brk + 1) wl (env.brk + 2) n (env.brk + 3) (env.brk + 4)
                mwl mb ma,
              Event.ReleaseCharArrayElements w (env.brk + 1) JNI_ABORT,
              Event.ReleaseIntArrayElements i (env.brk + 2) JNI_ABORT,
              Event.ReleaseCharArrayElements o (env.brk + 3) 0,
              Event.ReleaseIntArrayElements f (env.brk + 4) 0] }) := by
  subst hr hm
  simp [latinime_BinaryDictionary_getBigrams, JNIEnv.GetIntArrayElements,
    JNIEnv.GetCharArrayElements, JNIEnv.ReleaseIntArrayElements,
    JNIEnv.ReleaseCharArrayElements, bind, Except.bind, pure, Except.pure, JNIEnv.emit,
    NULL, JNI_ABORT, Nat.add_assoc]

/-- The run of `isValidWord` on a non-null handle, written out. -/
theorem isValidWord_run {D : Type} (E : Dictionary D) (env : JNIEnv) (thiz : jobject)
    (d : D) (w : Nat) (wl : jint) (m : Native) (r : Outcome D Bool)
    (hm : m =
      { ints := env.native.ints
        chars := Function.update env.native.chars (env.brk + 1) (env.charArrays w) })
    (hr : r = E.isValidWord d m (env.brk + 1) wl) :
    latinime_BinaryDictionary_isValidWord E env thiz (some d) (some w) wl =
      Except.ok (r.result, some r.self,
        { intArrays := env.intArrays
          charArrays := env.charArrays
          native := r.native
          brk := env.brk + 1
          classes := env.classes
          exception := env.exception
          trace := env.trace ++
            [Event.GetCharArrayElements w (env.brk + 1),
              Event.isValidWord (env.brk + 1) wl,
              Event.ReleaseCharArrayElements w (env.brk + 1) JNI_ABORT] }) := by
  subst hr hm
  simp [latinime_BinaryDictionary_isValidWord, JNIEnv.GetIntArrayElements,
    JNIEnv.GetCharArrayElements, JNIEnv.ReleaseIntArrayElements,
    JNIEnv.ReleaseCharArrayElements, bind, Except.bind, pure, Except.pure, JNIEnv.emit,
    NULL, JNI_ABORT, Nat.add_assoc]

/-! ## Opening a dictionary -/

/-- C1: when the direct-buffer address of the dictionary buffer is null, `open` and
`openNative` return the null handle whatever the multipliers and the size are, and all they
do to the environment is to write one log line: no `Dictionary` is constructed, no class is
looked up and nothing is thrown, the pending exception is as it was. -/
theorem open_null_buffer {D : Type} (E : Dictionary D) (env : JNIEnv)
    (thiz dictDirectBuffer : jobject) (typedLetterMultiplier fullWordMultiplier size : jint)
    (hnull : env.GetDirectBufferAddress dictDirectBuffer = NULL) :
    (latinime_BinaryDictionary_open E env thiz dictDirectBuffer typedLetterMultiplier
        fullWordMultiplier size).1 = none ∧
      (latinime_BinaryDictionary_open E env thiz dictDirectBuffer typedLetterMultiplier
        fullWordMultiplier size).2.trace =
        env.trace ++ [Event.log ANDROID_LOG_ERROR "NativeDict" "DICT: Dictionary buffer is null"] ∧
      (latinime_BinaryDictionary_open E env thiz dictDirectBuffer typedLetterMultiplier
        fullWordMultiplier size).2.exception = env.exception ∧
      (Java_org_pocketworkstation_pckeyboard_BinaryDictionary_openNative E env thiz
        dictDirectBuffer typedLetterMultiplier fullWordMultiplier size).1 = none ∧
      (Java_org_pocketworkstation_pckeyboard_BinaryDictionary_openNative E env thiz
        dictDirectBuffer typedLetterMultiplier fullWordMultiplier size).2.trace =
        env.trace ++ [Event.log ANDROID_LOG_ERROR "NativeDict" "DICT: Dictionary buffer is null"] ∧
      (Java_org_pocketworkstation_pckeyboard_BinaryDictionary_openNative E env thiz
        dictDirectBuffer typedLetterMultiplier fullWordMultiplier size).2.exception =
        env.exception := by
  simp [Java_org_pocketworkstation_pckeyboard_BinaryDictionary_openNative,
    latinime_BinaryDictionary_open, hnull, JNIEnv.emit]

/-- C1, at a concrete input: the null reference in place of the buffer. -/
theorem open_null_buffer_witness :
    sampleEnv.GetDirectBufferAddress jobject.null = NULL ∧
      (latinime_BinaryDictionary_open scribble sampleEnv jobject.null jobject.null 2 2 64).1 =
        none ∧
      (latinime_BinaryDictionary_open scribble sampleEnv jobject.null jobject.null 2 2 64).2.trace
        = sampleEnv.trace ++
          [Event.log ANDROID_LOG_ERROR "NativeDict" "DICT: Dictionary buffer is null"] ∧
      (latinime_BinaryDictionary_open scribble sampleEnv jobject.null jobject.null 2 2
        64).2.exception = sampleEnv.exception ∧
      (Java_org_pocketworkstation_pckeyboard_BinaryDictionary_openNative scribble sampleEnv
        jobject.null jobject.null 2 2 64).1 = none ∧
      (Java_org_pocketworkstation_pckeyboard_BinaryDictionary_openNative scribble sampleEnv
        jobject.null jobject.null 2 2 64).2.trace = sampleEnv.trace ++
          [Event.log ANDROID_LOG_ERROR "NativeDict" "DICT: Dictionary buffer is null"] ∧
      (Java_org_pocketworkstation_pckeyboard_BinaryDictionary_openNative scribble sampleEnv
        jobject.null jobject.null 2 2 64).2.exception = sampleEnv.exception :=
  ⟨by decide, open_null_buffer scribble sampleEnv jobject.null jobject.null 2 2 64 (by decide)⟩

/-- C4, as stated, fails: a direct buffer of capacity 16 at the non-null address 4096, opened
with the size 1000, gives a handle that is not null; the `Dictionary` is constructed with
that size. -/
theorem open_oversized_not_null :
    (16 : Int) < 1000 ∧
      (latinime_BinaryDictionary_open scribble sampleEnv jobject.null
        (jobject.directBuffer 4096 16) 2 2 1000).1 ≠ none ∧
      (latinime_BinaryDictionary_open scribble sampleEnv jobject.null
        (jobject.directBuffer 4096 16) 2 2 1000).2.trace =
        [Event.newDictionary 4096 2 2 1000] := by
  decide

/-- C4, amended: `open` returns the null handle exactly when the direct-buffer address is
null.  The size is not compared with the capacity of the buffer: for a direct buffer at a
non-null address, whatever its capacity and whatever the size, the handle is the
`Dictionary` constructed from the address, the two multipliers and the size as given. -/
theorem open_null_iff_address_null {D : Type} (E : Dictionary D) (env : JNIEnv)
    (thiz dictDirectBuffer : jobject) (typedLetterMultiplier fullWordMultiplier size : jint) :
    ((latinime_BinaryDictionary_open E env thiz dictDirectBuffer typedLetterMultiplier
        fullWordMultiplier size).1 = none ↔
      env.GetDirectBufferAddress dictDirectBuffer = NULL) ∧
    ∀ (address : Ptr) (capacity : Int), address ≠ NULL →
      latinime_BinaryDictionary_open E env thiz (jobject.directBuffer address capacity)
          typedLetterMultiplier fullWordMultiplier size =
        (some (E.create address typedLetterMultiplier fullWordMultiplier size),
          env.emit (Event.newDictionary address typedLetterMultiplier fullWordMultiplier size)) := by
  constructor
  · unfold latinime_BinaryDictionary_open
    by_cases h : env.GetDirectBufferAddress dictDirectBuffer = NULL <;> simp [h]
  · intro address capacity h
    simp [latinime_BinaryDictionary_open, JNIEnv.GetDirectBufferAddress, h]

/-! ## The null handle -/

/-- C2: on the null handle `getSuggestions` and `getBigrams` return the count 0 and leave
the environment as it was, trace included: no array is acquired, written or released and no
method of the engine is called, whatever the other arguments are. -/
theorem null_handle_counts_zero {D : Type} (E : Dictionary D) (env : JNIEnv) (thiz : jobject)
    (prevWordArray outputArray : jcharArray) (inputArray frequencyArray nextLettersArray : jintArray)
    (prevWordLength arraySize maxWordLength maxWords maxBigrams maxAlternatives skipPos
      nextLettersSize : jint) :
    latinime_BinaryDictionary_getSuggestions E env thiz none inputArray arraySize outputArray
        frequencyArray maxWordLength maxWords maxAlternatives skipPos nextLettersArray
        nextLettersSize = Except.ok (0, none, env) ∧
      latinime_BinaryDictionary_getBigrams E env thiz none prevWordArray prevWordLength
        inputArray arraySize outputArray frequencyArray maxWordLength maxBigrams
        maxAlternatives = Except.ok (0, none, env) := by
  exact ⟨rfl, rfl⟩

/-- C3: on the null handle `isValidWord` returns false and leaves the environment as it
was, trace included: the word array is not acquired and the engine is not called, whatever
the word array and the length are. -/
theorem null_handle_not_valid {D : Type} (E : Dictionary D) (env : JNIEnv) (thiz : jobject)
    (wordArray : jcharArray) (wordLength : jint) :
    latinime_BinaryDictionary_isValidWord E env thiz none wordArray wordLength =
      Except.ok (false, none, env) := by
  rfl

/-! ## The exported entry points -/

/-- C10: each exported entry point is the internal function of the same name applied to the
same arguments, parameter by parameter: same result, same environment afterwards, same
object behind the handle. -/
theorem native_entry_points_forward {D : Type} (E : Dictionary D) (env : JNIEnv)
    (thiz bb : jobject) (dict : Option D) (prev_word word output_chars : jcharArray)
    (input_codes frequencies next_letters_frequencies : jintArray)
    (typed_letter_multiplier full_word_multiplier dict_size prev_word_length word_length
      codes_size max_word_length max_words max_bigrams max_alternatives skip_pos
      next_letters_size : jint) :
    Java_org_pocketworkstation_pckeyboard_BinaryDictionary_openNative E env thiz bb
        typed_letter_multiplier full_word_multiplier dict_size =
      latinime_BinaryDictionary_open E env thiz bb typed_letter_multiplier
        full_word_multiplier dict_size ∧
    Java_org_pocketworkstation_pckeyboard_BinaryDictionary_getSuggestionsNative E env thiz dict
        input_codes codes_size output_chars frequencies max_word_length max_words
        max_alternatives skip_pos next_letters_frequencies next_letters_size =
      latinime_BinaryDictionary_getSuggestions E env thiz dict input_codes codes_size
        output_chars frequencies max_word_length max_words max_alternatives skip_pos
        next_letters_frequencies next_letters_size ∧
    Java_org_pocketworkstation_pckeyboard_BinaryDictionary_getBigramsNative E env thiz dict
        prev_word prev_word_length input_codes codes_size output_chars frequencies
        max_word_length max_bigrams max_alternatives =
      latinime_BinaryDictionary_getBigrams E env thiz dict prev_word prev_word_length
        input_codes codes_size output_chars frequencies max_word_length max_bigrams
        max_alternatives ∧
    Java_org_pocketworkstation_pckeyboard_BinaryDictionary_isValidWordNative E env thiz dict
        word word_length =
      latinime_BinaryDictionary_isValidWord E env thiz dict word word_length ∧
    Java_org_pocketworkstation_pckeyboard_BinaryDictionary_closeNative E env thiz dict =
      latinime_BinaryDictionary_close E env thiz dict := by
  exact ⟨rfl, rfl, rfl, rfl, rfl⟩

/-! ## Marshalling -/

/-- C7: on a non-null handle each query returns exactly what the engine returns on the
marshalled arguments.  There are native memory `m` and pointers into it, each array argument
marshalled to a pointer to a buffer with the elements of the array (the null next-letters
reference to the null pointer), such that the value returned is that of
`getSuggestions(inputCodes, arraySize, outputChars, frequencies, maxWordLength, maxWords,
maxAlternatives, skipPos, nextLetters, nextLettersSize)`, of
`getBigrams(prevWord, prevWordLength, inputCodes, inputArraySize, outputChars, frequencies,
maxWordLength, maxBigrams, maxAlternatives)` and of `isValidWord(word, wordLength)`
on the object behind the handle, every scalar passed on as given. -/
theorem wrapper_returns_engine_result {D : Type} (E : Dictionary D) (env : JNIEnv)
    (thiz : jobject) (dictionary : D)
    (prevWordArray wordArray inputArray outputArray frequencyArray : Nat)
    (nextLettersArray : jintArray)
    (prevWordLength wordLength arraySize inputArraySize maxWordLength maxWords maxBigrams
      maxAlternatives skipPos nextLettersSize : jint) :
    (∃ (m : Native) (inputCodes outputChars frequencies nextLetters : Ptr) (env' : JNIEnv),
        marshalsInt env m inputArray inputCodes ∧
        marshalsChar env m outputArray outputChars ∧
        marshalsInt env m frequencyArray frequencies ∧
        marshalsNextLetters env m nextLettersArray nextLetters ∧
        latinime_BinaryDictionary_getSuggestions E env thiz (some dictionary) (some inputArray)
            arraySize (some outputArray) (some frequencyArray) maxWordLength maxWords
            maxAlternatives skipPos nextLettersArray nextLettersSize =
          Except.ok
            ((E.getSuggestions dictionary m inputCodes arraySize outputChars frequencies
                maxWordLength maxWords maxAlternatives skipPos nextLetters
                nextLettersSize).result,
              some (E.getSuggestions dictionary m inputCodes arraySize outputChars frequencies
                maxWordLength maxWords maxAlternatives skipPos nextLetters
                nextLettersSize).self,
              env')) ∧
    (∃ (m : Native) (prevWord inputCodes outputChars frequencies : Ptr) (env' : JNIEnv),
        marshalsChar env m prevWordArray prevWord ∧
        marshalsInt env m inputArray inputCodes ∧
        marshalsChar env m outputArray outputChars ∧
        marshalsInt env m frequencyArray frequencies ∧
        latinime_BinaryDictionary_getBigrams E env thiz (some dictionary) (some prevWordArray)
            prevWordLength (some inputArray) inputArraySize (some outputArray)
            (some frequencyArray) maxWordLength maxBigrams maxAlternatives =
          Except.ok
            ((E.getBigrams dictionary m prevWord prevWordLength inputCodes inputArraySize
                outputChars frequencies maxWordLength maxBigrams maxAlternatives).result,
              some (E.getBigrams dictionary m prevWord prevWordLength inputCodes inputArraySize
                outputChars frequencies maxWordLength maxBigrams maxAlternatives).self,
              env')) ∧
    (∃ (m : Native) (word : Ptr) (env' : JNIEnv),
        marshalsChar env m wordArray word ∧
        latinime_BinaryDictionary_isValidWord E env thiz (some dictionary) (some wordArray)
            wordLength =
          Except.ok
            ((E.isValidWord dictionary m word wordLength).result,
              some (E.isValidWord dictionary m word wordLength).self,
              env')) := by
  refine ⟨?_, ?_, ?_⟩
  · cases nextLettersArray with
    | none =>
      exact ⟨_, env.brk + 2, env.brk + 3, env.brk + 1, NULL, _,
        by simp [marshalsInt, NULL], by simp [marshalsChar, NULL], by simp [marshalsInt, NULL],
        by simp [marshalsNextLetters],
        getSuggestions_run_none E env thiz dictionary inputArray outputArray frequencyArray
          arraySize maxWordLength maxWords maxAlternatives skipPos nextLettersSize _ _ rfl rfl⟩
    | some nl =>
      exact ⟨_, env.brk + 2, env.brk + 3, env.brk + 1, env.brk + 4, _,
        by simp [marshalsInt, NULL], by simp [marshalsChar, NULL], by simp [marshalsInt, NULL],
        by simp [marshalsNextLetters, marshalsInt, NULL],
        getSuggestions_run_some E env thiz dictionary inputArray outputArray frequencyArray nl
          arraySize maxWordLength maxWords maxAlternatives skipPos nextLettersSize _ _ rfl rfl⟩
  · exact ⟨_, env.brk + 1, env.brk + 2, env.brk + 3, env.brk + 4, _,
      by simp [marshalsChar, NULL], by simp [marshalsInt, NULL], by simp [marshalsChar, NULL],
      by simp [marshalsInt, NULL],
      getBigrams_run E env thiz dictionary prevWordArray inputArray outputArray frequencyArray
        prevWordLength inputArraySize maxWordLength maxBigrams maxAlternatives _ _ rfl rfl⟩
  · exact ⟨_, env.brk + 1, _, by simp [marshalsChar, NULL],
      isValidWord_run E env thiz dictionary wordArray wordLength _ _ rfl rfl⟩

/-! ## The arrays after a query -/

/-- C8, as stated, fails: `getSuggestions` called with one `int[]` both as the input codes
and as the frequencies.  The engine writes 102 into the frequencies buffer, that buffer is
committed, and the array that was passed as the input codes holds 102 after the call, not
the codes it held before. -/
theorem input_array_changed_when_shared :
    sampleEnv.intArrays 1 = [99, -1, -1, 97, -1, -1, 116, 114, 98] ∧
      result? (latinime_BinaryDictionary_getSuggestions scribble sampleEnv jobject.null (some 0)
        (some 1) 3 (some 1) (some 1) 4 3 3 (-1) none 0) = some 1 ∧
      intArray? (latinime_BinaryDictionary_getSuggestions scribble sampleEnv jobject.null (some 0)
        (some 1) 3 (some 1) (some 1) 4 3 3 (-1) none 0) 1 = some [102] := by
  decide

/-- C8, amended: on a non-null handle, provided no array passed as an input is also passed
as an output of the same call and the frequencies and next-letters arrays are two arrays,
the input arrays (the input codes of `getSuggestions` and `getBigrams`, the previous word of
`getBigrams`, the word of `isValidWord`) hold after the call what they held before, whatever
the engine wrote into their buffers, and the output arrays (the output words, the
frequencies, and the next letters when present) hold exactly what the engine left in their
buffers. -/
theorem arrays_after_query {D : Type} (E : Dictionary D) (env : JNIEnv)
    (thiz : jobject) (dictionary : D)
    (prevWordArray wordArray inputArray outputArray frequencyArray : Nat)
    (nextLettersArray : jintArray)
    (prevWordLength wordLength arraySize inputArraySize maxWordLength maxWords maxBigrams
      maxAlternatives skipPos nextLettersSize : jint)
    (hif : inputArray ≠ frequencyArray) (hin : nextLettersArray ≠ some inputArray)
    (hfn : nextLettersArray ≠ some frequencyArray) (hpo : prevWordArray ≠ outputArray) :
    (∃ (m : Native) (inputCodes outputChars frequencies nextLetters : Ptr)
        (r : Outcome D Int) (env' : JNIEnv),
        marshalsInt env m inputArray inputCodes ∧
        marshalsChar env m outputArray outputChars ∧
        marshalsInt env m frequencyArray frequencies ∧
        marshalsNextLetters env m nextLettersArray nextLetters ∧
        r = E.getSuggestions dictionary m inputCodes arraySize outputChars frequencies
          maxWordLength maxWords maxAlternatives skipPos nextLetters nextLettersSize ∧
        latinime_BinaryDictionary_getSuggestions E env thiz (some dictionary) (some inputArray)
            arraySize (some outputArray) (some frequencyArray) maxWordLength maxWords
            maxAlternatives skipPos nextLettersArray nextLettersSize =
          Except.ok (r.result, some r.self, env') ∧
        env'.intArrays inputArray = env.intArrays inputArray ∧
        env'.charArrays outputArray = r.native.chars outputChars ∧
        env'.intArrays frequencyArray = r.native.ints frequencies ∧
        ∀ a, nextLettersArray = some a → env'.intArrays a = r.native.ints nextLetters) ∧
    (∃ (m : Native) (prevWord inputCodes outputChars frequencies : Ptr)
        (r : Outcome D Int) (env' : JNIEnv),
        marshalsChar env m prevWordArray prevWord ∧
        marshalsInt env m inputArray inputCodes ∧
        marshalsChar env m outputArray outputChars ∧
        marshalsInt env m frequencyArray frequencies ∧
        r = E.getBigrams dictionary m prevWord prevWordLength inputCodes inputArraySize
          outputChars frequencies maxWordLength maxBigrams maxAlternatives ∧
        latinime_BinaryDictionary_getBigrams E env thiz (some dictionary) (some prevWordArray)
            prevWordLength (some inputArray) inputArraySize (some outputArray)
            (some frequencyArray) maxWordLength maxBigrams maxAlternatives =
          Except.ok (r.result, some r.self, env') ∧
        env'.charArrays prevWordArray = env.charArrays prevWordArray ∧
        env'.intArrays inputArray = env.intArrays inputArray ∧
        env'.charArrays outputArray = r.native.chars outputChars ∧
        env'.intArrays frequencyArray = r.native.ints frequencies) ∧
    (∃ (m : Native) (word : Ptr) (r : Outcome D Bool) (env' : JNIEnv),
        marshalsChar env m wordArray word ∧
        r = E.isValidWord dictionary m word wordLength ∧
        latinime_BinaryDictionary_isValidWord E env thiz (some dictionary) (some wordArray)
            wordLength =
          Except.ok (r.result, some r.self, env') ∧
        env'.charArrays wordArray = env.charArrays wordArray) := by
  refine ⟨?_, ?_, ?_⟩
  · cases nextLettersArray with
    | none =>
      exact ⟨_, env.brk + 2, env.brk + 3, env.brk + 1, NULL, _, _,
        by simp [marshalsInt, NULL], by simp [marshalsChar, NULL], by simp [marshalsInt, NULL],
        by simp [marshalsNextLetters], rfl,
        getSuggestions_run_none E env thiz dictionary inputArray outputArray frequencyArray
          arraySize maxWordLength maxWords maxAlternatives skipPos nextLettersSize _ _ rfl rfl,
        by simp [Function.update_noteq hif], by simp, by simp, by simp⟩
    | some nl =>
      have h1 : inputArray ≠ nl := fun h => hin (by rw [h])
      have h2 : frequencyArray ≠ nl := fun h => hfn (by rw [h])
      exact ⟨_, env.brk + 2, env.brk + 3, env.brk + 1, env.brk + 4, _, _,
        by simp [marshalsInt, NULL], by simp [marshalsChar, NULL], by simp [marshalsInt, NULL],
        by simp [marshalsNextLetters, marshalsInt, NULL], rfl,
        getSuggestions_run_some E env thiz dictionary inputArray outputArray frequencyArray nl
          arraySize maxWordLength maxWords maxAlternatives skipPos nextLettersSize _ _ rfl rfl,
        by simp [Function.update_noteq hif, Function.update_noteq h1], by simp,
        by simp [Function.update_noteq h2], by simp⟩
  · exact ⟨_, env.brk + 1, env.brk + 2, env.brk + 3, env.brk + 4, _, _,
      by simp [marshalsChar, NULL], by simp [marshalsInt, NULL], by simp [marshalsChar, NULL],
      by simp [marshalsInt, NULL], rfl,
      getBigrams_run E env thiz dictionary prevWordArray inputArray outputArray frequencyArray
        prevWordLength inputArraySize maxWordLength maxBigrams maxAlternatives _ _ rfl rfl,
      by simp [Function.update_noteq hpo], by simp [Function.update_noteq hif], by simp, by simp⟩
  · exact ⟨_, env.brk + 1, _, _, by simp [marshalsChar, NULL], rfl,
      isValidWord_run E env thiz dictionary wordArray wordLength _ _ rfl rfl, rfl⟩

/-- C8, amended, at a concrete input: the five arrays of the sample environment, each passed
in one place only.  After `getSuggestions` with the stand-in engine the input codes are
intact and the three output arrays hold what the engine wrote. -/
theorem arrays_after_query_witness :
    ((1 : Nat) ≠ 2 ∧ (some 3 : jintArray) ≠ some 1 ∧ (some 3 : jintArray) ≠ some 2 ∧
        (2 : Nat) ≠ 1) ∧
      (intArray? (latinime_BinaryDictionary_getSuggestions scribble sampleEnv jobject.null
          (some 0) (some 1) 3 (some 1) (some 2) 4 3 3 (-1) (some 3) 4) 1 =
          some (sampleEnv.intArrays 1) ∧
        charArray? (latinime_BinaryDictionary_getSuggestions scribble sampleEnv jobject.null
          (some 0) (some 1) 3 (some 1) (some 2) 4 3 3 (-1) (some 3) 4) 1 = some [104] ∧
        intArray? (latinime_BinaryDictionary_getSuggestions scribble sampleEnv jobject.null
          (some 0) (some 1) 3 (some 1) (some 2) 4 3 3 (-1) (some 3) 4) 2 = some [102] ∧
        intArray? (latinime_BinaryDictionary_getSuggestions scribble sampleEnv jobject.null
          (some 0) (some 1) 3 (some 1) (some 2) 4 3 3 (-1) (some 3) 4) 3 = some [103]) ∧
      ∃ (m : Native) (word : Ptr) (r : Outcome Nat Bool) (env' : JNIEnv),
        marshalsChar sampleEnv m 2 word ∧
        r = scribble.isValidWord 0 m word 3 ∧
        latinime_BinaryDictionary_isValidWord scribble sampleEnv jobject.null (some 0) (some 2) 3 =
          Except.ok (r.result, some r.self, env') ∧
        env'.charArrays 2 = sampleEnv.charArrays 2 :=
  ⟨by decide, by decide,
    (arrays_after_query scribble sampleEnv jobject.null 0 2 2 1 1 2 (some 3) 3 3 3 3 4 3 3 3
      (-1) 4 (by decide) (by decide) (by decide) (by decide)).2.2⟩

/-! ## Acquisitions and releases -/

/-- C9, as stated, fails: `getSuggestions` on the null handle with a next-letters array that
is not null returns with nothing added to the trace.  The next-letters array is supplied and
is not acquired, so on this path "acquired if and only if the array supplied is non-null"
does not hold. -/
theorem next_letters_not_acquired_on_null_handle :
    (some 3 : jintArray) ≠ none ∧
      sampleEnv.trace = [] ∧
      trace? (latinime_BinaryDictionary_getSuggestions scribble sampleEnv jobject.null none
        (some 1) 3 (some 1) (some 2) 4 3 3 (-1) (some 3) 4) = some [] := by
  decide

/-- C9, amended: whenever `getSuggestions`, `getBigrams` or `isValidWord` returns, on the
null handle or not, what the call added to the trace replays from no buffer held to no
buffer held: every buffer acquired is released once and nothing is released that was not
acquired.  On a non-null handle `getSuggestions` acquires the frequencies, the input codes
and the output words, and the next letters exactly when the array supplied is not null; the
engine receives the null pointer exactly when it is null; and the next letters are released,
after the other three, exactly when they were acquired.  The traces of `getBigrams` and
`isValidWord` on a non-null handle are four acquisitions and one, each released once after
the call of the engine.  On the null handle `getSuggestions` adds nothing to the trace: no
array is acquired or released, the next letters included, whether the array supplied is
null or not. -/
theorem acquired_released_once {D : Type} (E : Dictionary D) (env : JNIEnv) (thiz : jobject)
    (dict : Option D) (dictionary : D) (prevWordId wordId inputId outputId frequencyId : Nat)
    (prevWordArray wordArray outputArray : jcharArray)
    (inputArray frequencyArray nextLettersArray : jintArray)
    (prevWordLength wordLength arraySize inputArraySize maxWordLength maxWords maxBigrams
      maxAlternatives skipPos nextLettersSize : jint) :
    (∀ t', trace? (latinime_BinaryDictionary_getSuggestions E env thiz dict inputArray
          arraySize outputArray frequencyArray maxWordLength maxWords maxAlternatives skipPos
          nextLettersArray nextLettersSize) = some t' →
        ∃ t, t' = env.trace ++ t ∧ replay [] t = some []) ∧
    (∀ t', trace? (latinime_BinaryDictionary_getBigrams E env thiz dict prevWordArray
          prevWordLength inputArray inputArraySize outputArray frequencyArray maxWordLength
          maxBigrams maxAlternatives) = some t' →
        ∃ t, t' = env.trace ++ t ∧ replay [] t = some []) ∧
    (∀ t', trace? (latinime_BinaryDictionary_isValidWord E env thiz dict wordArray
          wordLength) = some t' →
        ∃ t, t' = env.trace ++ t ∧ replay [] t = some []) ∧
    (∃ (frequencies inputCodes outputChars nextLetters : Ptr),
      (nextLetters = NULL ↔ nextLettersArray = none) ∧
      trace? (latinime_BinaryDictionary_getSuggestions E env thiz (some dictionary)
          (some inputId) arraySize (some outputId) (some frequencyId) maxWordLength maxWords
          maxAlternatives skipPos nextLettersArray nextLettersSize) =
        some (env.trace ++
          ([Event.GetIntArrayElements frequencyId frequencies,
              Event.GetIntArrayElements inputId inputCodes,
              Event.GetCharArrayElements outputId outputChars] ++
            nextLettersArray.toList.map (fun a => Event.GetIntArrayElements a nextLetters) ++
            [Event.getSuggestions inputCodes arraySize outputChars frequencies maxWordLength
                maxWords maxAlternatives skipPos nextLetters nextLettersSize,
              Event.ReleaseIntArrayElements frequencyId frequencies 0,
              Event.ReleaseIntArrayElements inputId inputCodes JNI_ABORT,
              Event.ReleaseCharArrayElements outputId outputChars 0] ++
            nextLettersArray.toList.map
              (fun a => Event.ReleaseIntArrayElements a nextLetters 0)))) ∧
    (∃ (prevWord inputCodes outputChars frequencies : Ptr),
      trace? (latinime_BinaryDictionary_getBigrams E env thiz (some dictionary)
          (some prevWordId) prevWordLength (some inputId) inputArraySize (some outputId)
          (some frequencyId) maxWordLength maxBigrams maxAlternatives) =
        some (env.trace ++
          [Event.GetCharArrayElements prevWordId prevWord,
            Event.GetIntArrayElements inputId inputCodes,
            Event.GetCharArrayElements outputId outputChars,
            Event.GetIntArrayElements frequencyId frequencies,
            Event.getBigrams prevWord prevWordLength inputCodes inputArraySize outputChars
              frequencies maxWordLength maxBigrams maxAlternatives,
            Event.ReleaseCharArrayElements prevWordId prevWord JNI_ABORT,
            Event.ReleaseIntArrayElements inputId inputCodes JNI_ABORT,
            Event.ReleaseCharArrayElements outputId outputChars 0,
            Event.ReleaseIntArrayElements frequencyId frequencies 0])) ∧
    (∃ (word : Ptr),
      trace? (latinime_BinaryDictionary_isValidWord E env thiz (some dictionary)
          (some wordId) wordLength) =
        some (env.trace ++
          [Event.GetCharArrayElements wordId word,
            Event.isValidWord word wordLength,
            Event.ReleaseCharArrayElements wordId word JNI_ABORT])) ∧
    trace? (latinime_BinaryDictionary_getSuggestions E env thiz none inputArray arraySize
        outputArray frequencyArray maxWordLength maxWords maxAlternatives skipPos
        nextLettersArray nextLettersSize) = some env.trace := by
  refine ⟨?_, ?_, ?_, ?_, ?_, ?_, rfl⟩
  · intro t' ht
    cases dict with
    | none =>
      refine ⟨[], ?_, rfl⟩
      simpa [latinime_BinaryDictionary_getSuggestions, trace?, pure, Except.pure] using ht.symm
    | some d =>
      cases inputArray with
      | none =>
        cases frequencyArray <;>
          simp [latinime_BinaryDictionary_getSuggestions, trace?, bind, Except.bind,
            JNIEnv.GetIntArrayElements] at ht
      | some i =>
        cases frequencyArray with
        | none =>
          simp [latinime_BinaryDictionary_getSuggestions, trace?, bind, Except.bind,
            JNIEnv.GetIntArrayElements] at ht
        | some f =>
          cases outputArray with
          | none =>
            simp [latinime_BinaryDictionary_getSuggestions, trace?, bind, Except.bind,
              JNIEnv.GetIntArrayElements, JNIEnv.GetCharArrayElements] at ht
          | some o =>
            cases nextLettersArray with
            | none =>
              rw [getSuggestions_run_none E env thiz d i o f arraySize maxWordLength maxWords
                maxAlternatives skipPos nextLettersSize _ _ rfl rfl] at ht
              simp only [trace?, Option.some.injEq] at ht
              refine ⟨_, ht.symm, ?_⟩
              simp [replay, JNI_ABORT, JNI_COMMIT]
            | some nl =>
              rw [getSuggestions_run_some E env thiz d i o f nl arraySize maxWordLength
                maxWords maxAlternatives skipPos nextLettersSize _ _ rfl rfl] at ht
              simp only [trace?, Option.some.injEq] at ht
              refine ⟨_, ht.symm, ?_⟩
              simp [replay, JNI_ABORT, JNI_COMMIT]
  · intro t' ht
    cases dict with
    | none =>
      refine ⟨[], ?_, rfl⟩
      simpa [latinime_BinaryDictionary_getBigrams, trace?, pure, Except.pure] using ht.symm
    | some d =>
      cases prevWordArray with
      | none =>
        simp [latinime_BinaryDictionary_getBigrams, trace?, bind, Except.bind,
          JNIEnv.GetCharArrayElements] at ht
      | some w =>
        cases inputArray with
        | none =>
          simp [latinime_BinaryDictionary_getBigrams, trace?, bind, Except.bind,
            JNIEnv.GetIntArrayElements, JNIEnv.GetCharArrayElements] at ht
        | some i =>
          cases outputArray with
          | none =>
            simp [latinime_BinaryDictionary_getBigrams, trace?, bind, Except.bind,
              JNIEnv.GetIntArrayElements, JNIEnv.GetCharArrayElements] at ht
          | some o =>
            cases frequencyArray with
            | none =>
              simp [latinime_BinaryDictionary_getBigrams, trace?, bind, Except.bind,
                JNIEnv.GetIntArrayElements, JNIEnv.GetCharArrayElements] at ht
            | some f =>
              rw [getBigrams_run E env thiz d w i o f prevWordLength inputArraySize
                maxWordLength maxBigrams maxAlternatives _ _ rfl rfl] at ht
              simp only [trace?, Option.some.injEq] at ht
              refine ⟨_, ht.symm, ?_⟩
              simp [replay, JNI_ABORT, JNI_COMMIT]
  · intro t' ht
    cases dict with
    | none =>
      refine ⟨[], ?_, rfl⟩
      simpa [latinime_BinaryDictionary_isValidWord, trace?, pure, Except.pure] using ht.symm
    | some d =>
      cases wordArray with
      | none =>
        simp [latinime_BinaryDictionary_isValidWord, trace?, bind, Except.bind,
          JNIEnv.GetCharArrayElements] at ht
      | some w =>
        rw [isValidWord_run E env thiz d w wordLength _ _ rfl rfl] at ht
        simp only [trace?, Option.some.injEq] at ht
        refine ⟨_, ht.symm, ?_⟩
        simp [replay, JNI_ABORT, JNI_COMMIT]
  · cases nextLettersArray with
    | none =>
      refine ⟨env.brk + 1, env.brk + 2, env.brk + 3, NULL, by simp, ?_⟩
      rw [getSuggestions_run_none E env thiz dictionary inputId outputId frequencyId arraySize
        maxWordLength maxWords maxAlternatives skipPos nextLettersSize _ _ rfl rfl]
      simp [trace?]
    | some nl =>
      refine ⟨env.brk + 1, env.brk + 2, env.brk + 3, env.brk + 4, by simp [NULL], ?_⟩
      rw [getSuggestions_run_some E env thiz dictionary inputId outputId frequencyId nl
        arraySize maxWordLength maxWords maxAlternatives skipPos nextLettersSize _ _ rfl rfl]
      simp [trace?]
  · refine ⟨env.brk + 1, env.brk + 2, env.brk + 3, env.brk + 4, ?_⟩
    rw [getBigrams_run E env thiz dictionary prevWordId inputId outputId frequencyId
      prevWordLength inputArraySize maxWordLength maxBigrams maxAlternatives _ _ rfl rfl]
    simp [trace?]
  · refine ⟨env.brk + 1, ?_⟩
    rw [isValidWord_run E env thiz dictionary wordId wordLength _ _ rfl rfl]
    simp [trace?]

/-- C9, amended, at a concrete input: `getSuggestions` of the stand-in engine on the sample
environment with a next-letters array returns, and its trace is four acquisitions, the call
of the engine and four releases. -/
theorem acquired_released_once_witness :
    trace? (latinime_BinaryDictionary_getSuggestions scribble sampleEnv jobject.null (some 0)
        (some 1) 3 (some 1) (some 2) 4 3 3 (-1) (some 3) 4) =
      some [Event.GetIntArrayElements 2 1, Event.GetIntArrayElements 1 2,
        Event.GetCharArrayElements 1 3, Event.GetIntArrayElements 3 4,
        Event.getSuggestions 2 3 3 1 4 3 3 (-1) 4 4,
        Event.ReleaseIntArrayElements 2 1 0, Event.ReleaseIntArrayElements 1 2 JNI_ABORT,
        Event.ReleaseCharArrayElements 1 3 0, Event.ReleaseIntArrayElements 3 4 0] ∧
    ∃ t, [Event.GetIntArrayElements 2 1, Event.GetIntArrayElements 1 2,
        Event.GetCharArrayElements 1 3, Event.GetIntArrayElements 3 4,
        Event.getSuggestions 2 3 3 1 4 3 3 (-1) 4 4,
        Event.ReleaseIntArrayElements 2 1 0, Event.ReleaseIntArrayElements 1 2 JNI_ABORT,
        Event.ReleaseCharArrayElements 1 3 0, Event.ReleaseIntArrayElements 3 4 0] =
      sampleEnv.trace ++ t ∧ replay [] t = some [] :=
  ⟨by decide,
    (acquired_released_once scribble sampleEnv jobject.null (some 0) 0 2 2 1 1 2 (some 2)
      (some 2)
      (some 1) (some 1) (some 2) (some 3) 3 3 3 3 4 3 3 3 (-1) 4).1 _ (by decide)⟩

/-! ## The modelled engine behind the wrapper -/

/-- One step of the final read makes the list one longer. -/
theorem length_rankInsert {α : Type} (key : α → ℚ) (x : α) (l : List α) :
    (rankInsert key x l).length = l.length + 1 := by
  induction l with
  | nil => rfl
  | cons y ys ih =>
    unfold rankInsert
    split <;> simp [ih]

/-- The final read onto entries already ranked keeps every entry. -/
theorem length_foldl_rankInsert {α : Type} (key : α → ℚ) (xs ranked : List α) :
    (xs.foldl (fun ranked x => rankInsert key x ranked) ranked).length =
      ranked.length + xs.length := by
  induction xs generalizing ranked with
  | nil => simp
  | cons x xs ih =>
    simp only [List.foldl_cons, List.length_cons]
    rw [ih, length_rankInsert]
    omega

/-- The final read keeps every entry. -/
theorem length_rank {α : Type} (key : α → ℚ) (xs : List α) :
    (rank key xs).length = xs.length := by
  simp [rank, length_foldl_rankInsert]

/-- The entry an insertion evicts is one of the entries held. -/
theorem lowest_mem (held : List Suggestion) (z : Suggestion) (h : lowest held = some z) :
    z ∈ held := by
  induction held generalizing z with
  | nil => simp [lowest] at h
  | cons y ys ih =>
    unfold lowest at h
    cases hl : lowest ys with
    | none =>
      rw [hl] at h
      simp only [Option.some.injEq] at h
      simp [h]
    | some w =>
      rw [hl] at h
      simp only at h
      split at h
      · simp only [Option.some.injEq] at h
        subst h
        exact List.mem_cons_of_mem _ (ih w hl)
      · simp only [Option.some.injEq] at h
        simp [h]

/-- An insertion keeps the collector within its capacity. -/
theorem length_collect_le (maxWords : Int) (held : List Suggestion) (x : Suggestion)
    (h : held.length ≤ maxWords.toNat) : (collect maxWords held x).length ≤ maxWords.toNat := by
  unfold collect
  split
  · split
    · simpa using h
    · exact h
  · split
    · rename_i hlt
      simp only [List.length_append, List.length_singleton]
      omega
    · split
      · rename_i least hleast
        split
        · have hmem := lowest_mem held least hleast
          simp only [List.length_append, List.length_singleton, List.length_erase_of_mem hmem]
          have : 0 < held.length := List.length_pos_of_mem hmem
          omega
        · exact h
      · exact h

/-- Any run of insertions keeps the collector within its capacity. -/
theorem length_foldl_collect_le (maxWords : Int) (xs held : List Suggestion)
    (h : held.length ≤ maxWords.toNat) :
    (xs.foldl (collect maxWords) held).length ≤ maxWords.toNat := by
  induction xs generalizing held with
  | nil => simpa using h
  | cons x xs ih => exact ih _ (length_collect_le maxWords held x h)

/-- The modelled engine never reads more suggestions than the capacity. -/
theorem length_suggestions_le (altWeight : ℚ) (d : Store)
    (maxWordLength maxWords maxAlternatives skipPos : Int) (positions : List (List Nat)) :
    (suggestions altWeight d maxWordLength maxWords maxAlternatives skipPos positions).length ≤
      maxWords.toNat := by
  unfold suggestions
  rw [length_rank]
  exact length_foldl_collect_le maxWords _ [] (Nat.zero_le _)

/-- C5, as stated, fails: on the null handle with `maxWords` equal to -1 the count returned
is 0, which is more than `maxWords`; the modelled engine behind a non-null handle returns 0
there as well. -/
theorem count_exceeds_negative_maxWords :
    result? (latinime_BinaryDictionary_getSuggestions (specDictionary sampleFormat) sampleEnv
        jobject.null none (some 1) 3 (some 1) (some 2) 4 (-1) 3 (-1) (some 3) 4) = some 0 ∧
      result? (latinime_BinaryDictionary_getSuggestions (specDictionary sampleFormat) sampleEnv
        jobject.null (some sampleStore) (some 1) 3 (some 1) (some 2) 4 (-1) 3 (-1) (some 3)
        4) = some 0 ∧
      ¬ ((0 : Int) ≤ -1) := by
  refine ⟨by decide, ?_, by decide⟩
  rw [getSuggestions_run_some (specDictionary sampleFormat) sampleEnv jobject.null
    sampleStore 1 1 2 3 3 4 (-1) 3 (-1) 4 _ _ rfl rfl]
  simp only [result?, specDictionary, Option.some.injEq]
  simp [sampleEnv, sampleFormat, suggestions, sampleStore, specDictionary, search, expand,
    collect, lowest, rank, rankInsert, TrieNode.charCode, TrieNode.children,
    TrieNode.terminal, TrieNode.frequency, List.range, List.range.loop]

/-- C5, amended: for every handle and every input with `maxWords` at least 0, the count
returned by `getSuggestions` is at most `maxWords` (and at least 0): whenever the call
returns, and it does return when the three mandatory arrays are arrays. -/
theorem getSuggestions_count_le_maxWords (F : Format) (env : JNIEnv) (thiz : jobject)
    (dict : Option Store) (inputId outputId frequencyId : Nat)
    (inputArray frequencyArray nextLettersArray : jintArray) (outputArray : jcharArray)
    (arraySize maxWordLength maxWords maxAlternatives skipPos nextLettersSize : jint)
    (hmax : 0 ≤ maxWords) :
    (∀ count, result? (latinime_BinaryDictionary_getSuggestions (specDictionary F) env thiz
          dict inputArray arraySize outputArray frequencyArray maxWordLength maxWords
          maxAlternatives skipPos nextLettersArray nextLettersSize) = some count →
        0 ≤ count ∧ count ≤ maxWords) ∧
    ∃ count, result? (latinime_BinaryDictionary_getSuggestions (specDictionary F) env thiz
          dict (some inputId) arraySize (some outputId) (some frequencyId) maxWordLength
          maxWords maxAlternatives skipPos nextLettersArray nextLettersSize) = some count ∧
        0 ≤ count ∧ count ≤ maxWords := by
  have hmax' : (0 : Int) ≤ maxWords := hmax
  have key : ∀ (i f : jintArray) (o : jcharArray) (count : Int),
      result? (latinime_BinaryDictionary_getSuggestions (specDictionary F) env thiz
          dict i arraySize o f maxWordLength maxWords
          maxAlternatives skipPos nextLettersArray nextLettersSize) = some count →
        0 ≤ count ∧ count ≤ maxWords := by
    intro i f o count hc
    cases dict with
    | none =>
      simp [latinime_BinaryDictionary_getSuggestions, result?, pure, Except.pure] at hc
      omega
    | some d =>
      cases i with
      | none =>
        cases f <;>
          simp [latinime_BinaryDictionary_getSuggestions, result?, bind, Except.bind,
            JNIEnv.GetIntArrayElements] at hc
      | some i =>
        cases f with
        | none =>
          simp [latinime_BinaryDictionary_getSuggestions, result?, bind, Except.bind,
            JNIEnv.GetIntArrayElements] at hc
        | some f =>
          cases o with
          | none =>
            simp [latinime_BinaryDictionary_getSuggestions, result?, bind, Except.bind,
              JNIEnv.GetIntArrayElements, JNIEnv.GetCharArrayElements] at hc
          | some o =>
            cases nextLettersArray with
            | none =>
              rw [getSuggestions_run_none (specDictionary F) env thiz d i o f arraySize
                maxWordLength maxWords maxAlternatives skipPos nextLettersSize _ _ rfl rfl] at hc
              simp only [result?, Option.some.injEq, specDictionary] at hc
              subst hc
              refine ⟨Int.ofNat_nonneg _, ?_⟩
              generalize F.positions _ arraySize maxAlternatives = positions
              have hl := length_suggestions_le F.altWeight d maxWordLength maxWords
                maxAlternatives skipPos positions
              omega
            | some nl =>
              rw [getSuggestions_run_some (specDictionary F) env thiz d i o f nl arraySize
                maxWordLength maxWords maxAlternatives skipPos nextLettersSize _ _ rfl rfl] at hc
              simp only [result?, Option.some.injEq, specDictionary] at hc
              subst hc
              refine ⟨Int.ofNat_nonneg _, ?_⟩
              generalize F.positions _ arraySize maxAlternatives = positions
              have hl := length_suggestions_le F.altWeight d maxWordLength maxWords
                maxAlternatives skipPos positions
              omega
  refine ⟨key inputArray frequencyArray outputArray, ?_⟩
  have hret : ∃ count, result? (latinime_BinaryDictionary_getSuggestions (specDictionary F)
      env thiz dict (some inputId) arraySize (some outputId) (some frequencyId) maxWordLength
      maxWords maxAlternatives skipPos nextLettersArray nextLettersSize) = some count := by
    cases dict with
    | none => exact ⟨0, rfl⟩
    | some d =>
      cases nextLettersArray with
      | none =>
        rw [getSuggestions_run_none (specDictionary F) env thiz d inputId outputId frequencyId
          arraySize maxWordLength maxWords maxAlternatives skipPos nextLettersSize _ _ rfl rfl]
        exact ⟨_, rfl⟩
      | some nl =>
        rw [getSuggestions_run_some (specDictionary F) env thiz d inputId outputId frequencyId
          nl arraySize maxWordLength maxWords maxAlternatives skipPos nextLettersSize _ _ rfl
          rfl]
        exact ⟨_, rfl⟩
  obtain ⟨count, hcount⟩ := hret
  exact ⟨count, hcount, key _ _ _ count hcount⟩

/-- C5, amended, at a concrete input: the modelled engine on the sample dictionary, with the
codes c, a and t or r or b and room for two words: of cat, car and cab two are returned. -/
theorem getSuggestions_count_le_maxWords_witness :
    (0 : Int) ≤ 2 ∧
      result? (latinime_BinaryDictionary_getSuggestions (specDictionary sampleFormat)
        sampleEnv jobject.null (some sampleStore) (some 1) 3 (some 1) (some 2) 4 2 3 (-1)
        (some 3) 4) = some 2 ∧
      (0 : Int) ≤ 2 ∧ (2 : Int) ≤ 2 :=
  have hrun : result? (latinime_BinaryDictionary_getSuggestions (specDictionary sampleFormat)
      sampleEnv jobject.null (some sampleStore) (some 1) 3 (some 1) (some 2) 4 2 3 (-1)
      (some 3) 4) = some 2 := by
    rw [getSuggestions_run_some (specDictionary sampleFormat) sampleEnv jobject.null
      sampleStore 1 1 2 3 3 4 2 3 (-1) 4 _ _ rfl rfl]
    simp only [result?, specDictionary, Option.some.injEq]
    simp [sampleEnv, sampleFormat, suggestions, sampleStore, specDictionary, search, expand,
      collect, lowest, rank, rankInsert, TrieNode.charCode, TrieNode.children,
      TrieNode.terminal, TrieNode.frequency, List.range, List.range.loop]
    norm_num [rankInsert, List.erase]
  ⟨by decide, hrun,
    (getSuggestions_count_le_maxWords sampleFormat sampleEnv jobject.null (some sampleStore)
      1 1 2 (some 1) (some 2) (some 3) (some 1) 3 4 2 3 (-1) 4 (by decide)).1 2 hrun⟩

/-- C6: on the modelled engine, for every handle and every previous word, when `isValidWord`
returns false for the word then `getBigrams` for the same word returns the count 0, whatever
the input codes, `maxWordLength`, `maxBigrams` and `maxAlternatives` are. -/
theorem getBigrams_zero_of_not_valid (F : Format) (env : JNIEnv) (thiz : jobject)
    (dict : Option Store) (prevWordArray inputArray outputArray frequencyArray : Nat)
    (prevWordLength inputArraySize maxWordLength maxBigrams maxAlternatives : jint)
    (hinvalid : result? (latinime_BinaryDictionary_isValidWord (specDictionary F) env thiz dict
      (some prevWordArray) prevWordLength) = some false) :
    result? (latinime_BinaryDictionary_getBigrams (specDictionary F) env thiz dict
      (some prevWordArray) prevWordLength (some inputArray) inputArraySize (some outputArray)
      (some frequencyArray) maxWordLength maxBigrams maxAlternatives) = some 0 := by
  cases dict with
  | none => rfl
  | some d =>
    rw [isValidWord_run (specDictionary F) env thiz d prevWordArray prevWordLength _ _ rfl
      rfl] at hinvalid
    rw [getBigrams_run (specDictionary F) env thiz d prevWordArray inputArray outputArray
      frequencyArray prevWordLength inputArraySize maxWordLength maxBigrams maxAlternatives
      _ _ rfl rfl]
    simp only [result?, specDictionary, Option.some.injEq, Function.update_same] at hinvalid
    simp [result?, specDictionary, bigrams, hinvalid]

/-- C6, at a concrete input: the sample dictionary does not hold the word dog, and
`getBigrams` after dog returns 0. -/
theorem getBigrams_zero_of_not_valid_witness :
    result? (latinime_BinaryDictionary_isValidWord (specDictionary sampleFormat) sampleEnv
        jobject.null (some sampleStore) (some 3) 3) = some false ∧
      result? (latinime_BinaryDictionary_getBigrams (specDictionary sampleFormat) sampleEnv
        jobject.null (some sampleStore) (some 3) 3 (some 1) 0 (some 1) (some 2) 4 3 3) = some 0 :=
  ⟨by decide,
    getBigrams_zero_of_not_valid sampleFormat sampleEnv jobject.null (some sampleStore) 3 1 1 2
      3 0 4 3 3 (by decide)⟩

end BinaryDictionary
